import Mathlib

/-!
Verification of the submission-grading pipeline of the CodingPlatform
repository (student/professor coding-activity portal).

The frontend (React, `first-app/src`) is embedded directly from the source
files.  The Django backend sources (grading views, Celery tasks, the Judge0
adapter and the AI-feedback service) are not part of the available sources;
where a definition corresponds to backend behaviour it is modelled from the
specification and its doc comment says so explicitly.
-/

namespace CP

/-! ## Feedback poller
Embeds `fetchFeedback` from `first-app/src/pages/FeedbackPage.jsx` and
`handleContinue` from `SubmissionOverlay.jsx`.  Both poll
`codeAPI.getAIFeedback(submissionId)` in a bounded `for` loop. -/

/-- Payload of a poll response with `has_feedback: true`. -/
structure FeedbackData where
  feedback : String
  verdict_type : String
  model_used : String
  generated_at : String
deriving Repr, DecidableEq

/-- Body of one poll response from `GET /students/submissions/{id}/ai-feedback/`:
either the feedback record is present (`has_feedback`), or generation ended in
an error (`status: "error"`, with `data.error` possibly absent), or feedback is
still being generated. -/
inductive PollResponse where
  | hasFeedback (d : FeedbackData)
  | errorStatus (msg : Option String)
  | stillPending
deriving Repr, DecidableEq

/-- One poll attempt: the request either resolves with a response body or
throws (network / HTTP error), which lands in the `catch` branch. -/
inductive PollStep where
  | resp (r : PollResponse)
  | throws
deriving Repr, DecidableEq

/-- Call sites of `setError` / `setFeedbackError` inside the poller, used to
record which report was issued (the message strings themselves may collide
with backend-supplied text, the call site cannot). -/
inductive PollReport where
  | genError (msg : String)
  | unableToLoad
  | timeoutReport
deriving Repr, DecidableEq

/-- React state touched by the poller, plus instrumentation: `reads` counts
`codeAPI.getAIFeedback` calls, `sleeps` counts executions of the
`setTimeout(pollInterval)` sleep, `reports` the `setError` call sites fired,
`returnedEarly` whether the loop exited through a `return`. -/
structure PollState where
  feedback : Option FeedbackData := none
  error : Option String := none
  loading : Bool := true
  reads : Nat := 0
  sleeps : Nat := 0
  reports : List PollReport := []
  returnedEarly : Bool := false
deriving Repr, DecidableEq

def feedbackPageMaxAttempts : Nat := 15
def feedbackPagePollIntervalMs : Nat := 2000
def overlayMaxAttempts : Nat := 10
def overlayPollIntervalMs : Nat := 2000

def genErrorFallbackMsg : String := "Failed to generate feedback"
def unableToLoadMsg : String := "Unable to load AI feedback. Please try again later."
def feedbackPageTimeoutMsg : String :=
  "AI feedback is taking longer than expected. Please check back later."
def overlayTimeoutMsg : String :=
  "AI feedback is taking longer than expected. It will be available soon."

/-- The body of the `for (let attempt = 0; attempt < maxAttempts; attempt++)`
loop shared by both pollers.  `attempt` is the current loop index, `fuel` the
number of iterations still allowed (`maxAttempts - attempt`); the JS test
`attempt === maxAttempts - 1` in the `catch` branch is exactly `fuel = 1`. -/
def pollAux (env : Nat → PollStep) : Nat → Nat → PollState → PollState
  | _, 0, st => st
  | attempt, fuel + 1, st =>
    let st := { st with reads := st.reads + 1 }
    match env attempt with
    | .resp (.hasFeedback d) =>
        { st with feedback := some d, loading := false, returnedEarly := true }
    | .resp (.errorStatus m) =>
        { st with error := some (m.getD genErrorFallbackMsg),
                  reports := st.reports ++ [.genError (m.getD genErrorFallbackMsg)],
                  loading := false, returnedEarly := true }
    | .resp .stillPending =>
        pollAux env (attempt + 1) fuel { st with sleeps := st.sleeps + 1 }
    | .throws =>
        if fuel = 0 then
          { st with error := some unableToLoadMsg,
                    reports := st.reports ++ [.unableToLoad], loading := false }
        else
          pollAux env (attempt + 1) fuel st

/-- A whole poller run: the loop, then the post-loop timeout branch.
`capturedLoading` is the value of the `loading` / `feedbackLoading` React state
captured by the closure that contains the post-loop `if`: the closure reads
the state variable of the render in which it was created, not the current
state. -/
def runPoller (env : Nat → PollStep) (maxAttempts : Nat) (capturedLoading : Bool)
    (timeoutMsg : String) : PollState :=
  let st := pollAux env 0 maxAttempts {}
  if st.returnedEarly then st
  else if capturedLoading then
    { st with error := some timeoutMsg,
              reports := st.reports ++ [.timeoutReport], loading := false }
  else st

/-- `fetchFeedback` in `FeedbackPage.jsx`: the effect closure is created on the
first render, where `loading` is `true` (`useState(true)`), so the captured
guard value of the post-loop `if (loading)` is `true`. -/
def fetchFeedbackRun (env : Nat → PollStep) : PollState :=
  runPoller env feedbackPageMaxAttempts true feedbackPageTimeoutMsg

/-- `handleContinue` in `SubmissionOverlay.jsx`: the handler closure is created
on the render whose Continue button was clicked, where `feedbackLoading` is
`false` (it is only set to `true` inside the handler itself, which cannot
change the already-captured value), so the captured guard value of the
post-loop `if (feedbackLoading)` is `false`. -/
def handleContinueRun (env : Nat → PollStep) : PollState :=
  runPoller env overlayMaxAttempts false overlayTimeoutMsg

/-- A poll step that delivered a feedback record, success or error. -/
def isRecordStep : PollStep → Bool
  | .resp (.hasFeedback _) => true
  | .resp (.errorStatus _) => true
  | .resp .stillPending => false
  | .throws => false

example : (fetchFeedbackRun (fun _ => .resp .stillPending)).reads = 15 := by decide
example : (handleContinueRun (fun _ => .resp .stillPending)).error = none := by decide
example : (fetchFeedbackRun (fun _ => .resp .stillPending)).error
    = some feedbackPageTimeoutMsg := by decide

theorem pollAux_reads_le (env : Nat → PollStep) :
    ∀ fuel attempt st, (pollAux env attempt fuel st).reads ≤ st.reads + fuel := by
  intro fuel
  induction fuel with
  | zero => intro attempt st; simp [pollAux]
  | succ f ih =>
    intro attempt st
    simp only [pollAux]
    cases env attempt with
    | resp r =>
      cases r with
      | hasFeedback d => simp
      | errorStatus m => simp
      | stillPending =>
        have := ih (attempt + 1) { st with reads := st.reads + 1, sleeps := st.sleeps + 1 }
        simp at this ⊢
        omega
    | throws =>
      by_cases hf : f = 0
      · subst hf; simp
      · simp only [hf, if_false]
        have := ih (attempt + 1) { st with reads := st.reads + 1 }
        simp at this ⊢
        omega

theorem pollAux_stops (env : Nat → PollStep) :
    ∀ fuel i attempt st, i < fuel →
      (∀ j, j < i → isRecordStep (env (attempt + j)) = false) →
      isRecordStep (env (attempt + i)) = true →
      (pollAux env attempt fuel st).returnedEarly = true ∧
      (pollAux env attempt fuel st).reads = st.reads + i + 1 ∧
      (∀ d, env (attempt + i) = .resp (.hasFeedback d) →
        (pollAux env attempt fuel st).feedback = some d) ∧
      (∀ m, env (attempt + i) = .resp (.errorStatus m) →
        (pollAux env attempt fuel st).error = some (m.getD genErrorFallbackMsg)) := by
  intro fuel
  induction fuel with
  | zero => intro i attempt st hi; omega
  | succ f ih =>
    intro i attempt st hi hpre hrec
    cases i with
    | zero =>
      simp only [Nat.add_zero] at hrec ⊢
      simp only [pollAux]
      cases h : env attempt with
      | resp r =>
        cases r with
        | hasFeedback d =>
          refine ⟨by simp, by simp, ?_, ?_⟩
          · intro d' hd'
            simp at hd'
            subst hd'
            simp
          · intro m hm
            simp at hm
        | errorStatus m =>
          refine ⟨by simp, by simp, ?_, ?_⟩
          · intro d' hd'
            simp at hd'
          · intro m' hm
            simp at hm
            subst hm
            simp
        | stillPending => rw [h] at hrec; simp [isRecordStep] at hrec
      | throws => rw [h] at hrec; simp [isRecordStep] at hrec
    | succ i' =>
      have h0 : isRecordStep (env attempt) = false := by
        have := hpre 0 (Nat.succ_pos i')
        simpa using this
      have harith : ∀ k, attempt + 1 + k = attempt + (k + 1) := by intro k; omega
      simp only [pollAux]
      cases h : env attempt with
      | resp r =>
        cases r with
        | hasFeedback d => rw [h] at h0; simp [isRecordStep] at h0
        | errorStatus m => rw [h] at h0; simp [isRecordStep] at h0
        | stillPending =>
          have key := ih i' (attempt + 1)
            { st with reads := st.reads + 1, sleeps := st.sleeps + 1 }
            (by omega)
            (fun j hj => by rw [harith j]; exact hpre (j + 1) (by omega))
            (by rw [harith i']; exact hrec)
          refine ⟨?_, ?_, ?_, ?_⟩
          · simpa using key.1
          · have := key.2.1
            simp at this ⊢
            omega
          · intro d hd
            have := key.2.2.1 d (by rw [harith i']; exact hd)
            simpa using this
          · intro m hm
            have := key.2.2.2 m (by rw [harith i']; exact hm)
            simpa using this
      | throws =>
        have hf : f ≠ 0 := by omega
        have key := ih i' (attempt + 1) { st with reads := st.reads + 1 }
          (by omega)
          (fun j hj => by rw [harith j]; exact hpre (j + 1) (by omega))
          (by rw [harith i']; exact hrec)
        refine ⟨?_, ?_, ?_, ?_⟩
        · simpa [hf] using key.1
        · have := key.2.1
          simp [hf] at this ⊢
          omega
        · intro d hd
          have := key.2.2.1 d (by rw [harith i']; exact hd)
          simpa [hf] using this
        · intro m hm
          have := key.2.2.2 m (by rw [harith i']; exact hm)
          simpa [hf] using this
theorem countP_range_shift (p : Nat → Bool) (n : Nat) :
    (List.range (n + 1)).countP p
      = (if p 0 then 1 else 0) + (List.range n).countP (fun j => p (j + 1)) := by
  rw [List.range_succ_eq_map, List.countP_cons, List.countP_map]
  have hc : (List.range n).countP (p ∘ Nat.succ) = (List.range n).countP (fun j => p (j + 1)) := by
    apply List.countP_congr
    intro a _
    rfl
  rw [hc]
  omega

theorem countP_env_shift (env : Nat → PollStep) (a n : Nat) :
    (List.range n).countP
        (fun j => decide (env (a + (j + 1)) = PollStep.resp PollResponse.stillPending))
      = (List.range n).countP
        (fun j => decide (env (a + 1 + j) = PollStep.resp PollResponse.stillPending)) := by
  apply List.countP_congr
  intro x _
  have hx : a + (x + 1) = a + 1 + x := by omega
  rw [hx]

theorem pollAux_sleeps (env : Nat → PollStep) :
    ∀ fuel attempt st, ∃ n, n ≤ fuel ∧
      (pollAux env attempt fuel st).reads = st.reads + n ∧
      (pollAux env attempt fuel st).sleeps = st.sleeps +
        (List.range n).countP
          (fun j => decide (env (attempt + j) = PollStep.resp PollResponse.stillPending)) := by
  intro fuel
  induction fuel with
  | zero => intro attempt st; exact ⟨0, by simp, by simp [pollAux], by simp [pollAux]⟩
  | succ f ih =>
    intro attempt st
    simp only [pollAux]
    cases h : env attempt with
    | resp r =>
      cases r with
      | hasFeedback d =>
        refine ⟨1, by omega, by simp, ?_⟩
        simp [countP_range_shift, h]
      | errorStatus m =>
        refine ⟨1, by omega, by simp, ?_⟩
        simp [countP_range_shift, h]
      | stillPending =>
        obtain ⟨n, hn, hr, hs⟩ :=
          ih (attempt + 1) { st with reads := st.reads + 1, sleeps := st.sleeps + 1 }
        refine ⟨n + 1, by omega, ?_, ?_⟩
        · simp at hr ⊢
          omega
        · simp only [countP_range_shift]
          simp [h]
          rw [countP_env_shift env attempt n]
          simp at hs
          omega
    | throws =>
      by_cases hf : f = 0
      · subst hf
        refine ⟨1, by omega, by simp, ?_⟩
        simp [countP_range_shift, h]
      · simp only [hf, if_false]
        obtain ⟨n, hn, hr, hs⟩ := ih (attempt + 1) { st with reads := st.reads + 1 }
        refine ⟨n + 1, by omega, ?_, ?_⟩
        · simp at hr ⊢
          omega
        · simp only [countP_range_shift]
          simp [h]
          rw [countP_env_shift env attempt n]
          simp at hs
          omega

theorem pollAux_unable (env : Nat → PollStep) :
    ∀ fuel attempt st, 1 ≤ fuel →
      ((PollReport.unableToLoad ∈ (pollAux env attempt fuel st).reports) ↔
        (PollReport.unableToLoad ∈ st.reports ∨
          (env (attempt + (fuel - 1)) = PollStep.throws ∧
           ∀ j, j < fuel - 1 → isRecordStep (env (attempt + j)) = false))) := by
  intro fuel
  induction fuel with
  | zero => intro attempt st h1; omega
  | succ f ih =>
    intro attempt st _
    simp only [pollAux, Nat.add_sub_cancel]
    cases h : env attempt with
    | resp r =>
      cases r with
      | hasFeedback d =>
        constructor
        · intro hmem
          left
          simpa using hmem
        · rintro (hmem | ⟨hthrow, hall⟩)
          · simpa using hmem
          · exfalso
            rcases Nat.eq_zero_or_pos f with hf | hf
            · subst hf
              rw [Nat.add_zero, h] at hthrow
              cases hthrow
            · have := hall 0 hf
              rw [Nat.add_zero, h] at this
              simp [isRecordStep] at this
      | errorStatus m =>
        constructor
        · intro hmem
          left
          simpa using hmem
        · rintro (hmem | ⟨hthrow, hall⟩)
          · simpa using hmem
          · exfalso
            rcases Nat.eq_zero_or_pos f with hf | hf
            · subst hf
              rw [Nat.add_zero, h] at hthrow
              cases hthrow
            · have := hall 0 hf
              rw [Nat.add_zero, h] at this
              simp [isRecordStep] at this
      | stillPending =>
        rcases Nat.eq_zero_or_pos f with hf | hf
        · subst hf
          simp [pollAux, h]
        · have key := ih (attempt + 1)
            { st with reads := st.reads + 1, sleeps := st.sleeps + 1 } hf
          have hidx : attempt + 1 + (f - 1) = attempt + f := by omega
          rw [hidx] at key
          have hB : PollReport.unableToLoad ∈ (pollAux env (attempt + 1) f
              { st with reads := st.reads + 1, sleeps := st.sleeps + 1 }).reports ↔
              (PollReport.unableToLoad ∈ st.reports ∨
                (env (attempt + f) = PollStep.throws ∧
                 ∀ j, j < f - 1 → isRecordStep (env (attempt + 1 + j)) = false)) := by
            simpa using key
          have hsplit : (∀ j, j < f → isRecordStep (env (attempt + j)) = false) ↔
              (∀ j, j < f - 1 → isRecordStep (env (attempt + 1 + j)) = false) := by
            constructor
            · intro hall j hj
              have := hall (j + 1) (by omega)
              rwa [show attempt + (j + 1) = attempt + 1 + j from by omega] at this
            · intro hall j hj
              cases j with
              | zero =>
                rw [Nat.add_zero, h]
                simp [isRecordStep]
              | succ j' =>
                have := hall j' (by omega)
                rwa [show attempt + 1 + j' = attempt + (j' + 1) from by omega] at this
          constructor
          · intro hmem
            rcases hB.mp (by simpa using hmem) with hm | ⟨ht, hall⟩
            · exact Or.inl hm
            · exact Or.inr ⟨ht, hsplit.mpr hall⟩
          · rintro (hm | ⟨ht, hall⟩)
            · simpa using hB.mpr (Or.inl hm)
            · simpa using hB.mpr (Or.inr ⟨ht, hsplit.mp hall⟩)
    | throws =>
      rcases Nat.eq_zero_or_pos f with hf | hf
      · subst hf
        simp [h]
      · have hfne : f ≠ 0 := by omega
        simp only [hfne, if_false]
        have key := ih (attempt + 1) { st with reads := st.reads + 1 } hf
        have hidx : attempt + 1 + (f - 1) = attempt + f := by omega
        rw [hidx] at key
        have hB : PollReport.unableToLoad ∈ (pollAux env (attempt + 1) f
            { st with reads := st.reads + 1 }).reports ↔
            (PollReport.unableToLoad ∈ st.reports ∨
              (env (attempt + f) = PollStep.throws ∧
               ∀ j, j < f - 1 → isRecordStep (env (attempt + 1 + j)) = false)) := by
          simpa using key
        have hsplit : (∀ j, j < f → isRecordStep (env (attempt + j)) = false) ↔
            (∀ j, j < f - 1 → isRecordStep (env (attempt + 1 + j)) = false) := by
          constructor
          · intro hall j hj
            have := hall (j + 1) (by omega)
            rwa [show attempt + (j + 1) = attempt + 1 + j from by omega] at this
          · intro hall j hj
            cases j with
            | zero =>
              rw [Nat.add_zero, h]
              simp [isRecordStep]
            | succ j' =>
              have := hall j' (by omega)
              rwa [show attempt + 1 + j' = attempt + (j' + 1) from by omega] at this
        constructor
        · intro hmem
          rcases hB.mp (by simpa using hmem) with hm | ⟨ht, hall⟩
          · exact Or.inl hm
          · exact Or.inr ⟨ht, hsplit.mpr hall⟩
        · rintro (hm | ⟨ht, hall⟩)
          · simpa using hB.mpr (Or.inl hm)
          · simpa using hB.mpr (Or.inr ⟨ht, hsplit.mp hall⟩)

theorem runPoller_reads (env : Nat → PollStep) (m : Nat) (g : Bool) (t : String) :
    (runPoller env m g t).reads = (pollAux env 0 m {}).reads := by
  unfold runPoller
  by_cases h1 : (pollAux env 0 m {}).returnedEarly <;> cases g <;> simp [h1]

theorem runPoller_sleeps (env : Nat → PollStep) (m : Nat) (g : Bool) (t : String) :
    (runPoller env m g t).sleeps = (pollAux env 0 m {}).sleeps := by
  unfold runPoller
  by_cases h1 : (pollAux env 0 m {}).returnedEarly <;> cases g <;> simp [h1]

theorem runPoller_early (env : Nat → PollStep) (m : Nat) (g : Bool) (t : String)
    (h : (pollAux env 0 m {}).returnedEarly = true) :
    runPoller env m g t = pollAux env 0 m {} := by
  unfold runPoller
  simp [h]

theorem runPoller_unable_mem (env : Nat → PollStep) (m : Nat) (g : Bool) (t : String) :
    (PollReport.unableToLoad ∈ (runPoller env m g t).reports) ↔
      PollReport.unableToLoad ∈ (pollAux env 0 m {}).reports := by
  unfold runPoller
  by_cases h1 : (pollAux env 0 m {}).returnedEarly <;> cases g <;> simp [h1]

/-- C2: every run of the feedback poller is a bounded loop that terminates: on
each attempt it reads the submission feedback record once; if a record is
present (success or error) it stops at that attempt and returns it; otherwise
it sleeps the fixed 2000 ms interval and retries, performing at most 15 reads
in FeedbackPage and 10 in SubmissionOverlay. -/
theorem c2_poller_bounded_terminates (env : Nat → PollStep) :
    (fetchFeedbackRun env).reads ≤ 15 ∧
    (handleContinueRun env).reads ≤ 10 ∧
    feedbackPagePollIntervalMs = 2000 ∧
    overlayPollIntervalMs = 2000 ∧
    (∀ i, i < 15 →
      (∀ j, j < i → isRecordStep (env j) = false) →
      isRecordStep (env i) = true →
      (fetchFeedbackRun env).reads = i + 1 ∧
      (∀ d, env i = PollStep.resp (PollResponse.hasFeedback d) →
        (fetchFeedbackRun env).feedback = some d) ∧
      (∀ m, env i = PollStep.resp (PollResponse.errorStatus m) →
        (fetchFeedbackRun env).error = some (m.getD genErrorFallbackMsg))) ∧
    (∀ i, i < 10 →
      (∀ j, j < i → isRecordStep (env j) = false) →
      isRecordStep (env i) = true →
      (handleContinueRun env).reads = i + 1 ∧
      (∀ d, env i = PollStep.resp (PollResponse.hasFeedback d) →
        (handleContinueRun env).feedback = some d) ∧
      (∀ m, env i = PollStep.resp (PollResponse.errorStatus m) →
        (handleContinueRun env).error = some (m.getD genErrorFallbackMsg))) := by
  have hff : fetchFeedbackRun env = runPoller env 15 true feedbackPageTimeoutMsg := rfl
  have hhc : handleContinueRun env = runPoller env 10 false overlayTimeoutMsg := rfl
  refine ⟨?_, ?_, rfl, rfl, ?_, ?_⟩
  · rw [hff, runPoller_reads]
    have := pollAux_reads_le env 15 0 {}
    simpa using this
  · rw [hhc, runPoller_reads]
    have := pollAux_reads_le env 10 0 {}
    simpa using this
  · intro i hi hpre hrec
    have hstop := pollAux_stops env 15 i 0 {} hi
      (fun j hj => by simpa using hpre j hj) (by simpa using hrec)
    have heq : fetchFeedbackRun env = pollAux env 0 15 {} := by
      rw [hff]
      exact runPoller_early env 15 true feedbackPageTimeoutMsg hstop.1
    refine ⟨?_, ?_, ?_⟩
    · rw [heq]
      simpa using hstop.2.1
    · intro d hd
      rw [heq]
      exact hstop.2.2.1 d (by simpa using hd)
    · intro m hm
      rw [heq]
      exact hstop.2.2.2 m (by simpa using hm)
  · intro i hi hpre hrec
    have hstop := pollAux_stops env 10 i 0 {} hi
      (fun j hj => by simpa using hpre j hj) (by simpa using hrec)
    have heq : handleContinueRun env = pollAux env 0 10 {} := by
      rw [hhc]
      exact runPoller_early env 10 false overlayTimeoutMsg hstop.1
    refine ⟨?_, ?_, ?_⟩
    · rw [heq]
      simpa using hstop.2.1
    · intro d hd
      rw [heq]
      exact hstop.2.2.1 d (by simpa using hd)
    · intro m hm
      rw [heq]
      exact hstop.2.2.2 m (by simpa using hm)

def c2WitnessEnv : Nat → PollStep := fun i =>
  if i = 2 then
    PollStep.resp (PollResponse.hasFeedback
      ⟨"Nice work", "accepted", "gemini-1.5-flash", "2025-12-22T10:30:00Z"⟩)
  else PollStep.resp PollResponse.stillPending

theorem c2_poller_bounded_terminates_witness :
    (fetchFeedbackRun c2WitnessEnv).reads = 3 ∧
    (handleContinueRun c2WitnessEnv).reads = 3 := by
  have h := c2_poller_bounded_terminates c2WitnessEnv
  exact ⟨(h.2.2.2.2.1 2 (by decide) (by decide) (by decide)).1,
         (h.2.2.2.2.2 2 (by decide) (by decide) (by decide)).1⟩

/-- C9: in both pollers the fixed 2-second sleep runs exactly on the attempts
whose poll reported "no feedback yet" (exceptions retry immediately with no
sleep), and the "Unable to load" report is issued precisely when the final
attempt (index 14, resp. 9) throws after all earlier attempts delivered no
record. -/
theorem c9_sleep_only_on_pending (env : Nat → PollStep) :
    ((fetchFeedbackRun env).sleeps = (List.range (fetchFeedbackRun env).reads).countP
        (fun j => decide (env j = PollStep.resp PollResponse.stillPending))) ∧
    ((handleContinueRun env).sleeps = (List.range (handleContinueRun env).reads).countP
        (fun j => decide (env j = PollStep.resp PollResponse.stillPending))) ∧
    ((PollReport.unableToLoad ∈ (fetchFeedbackRun env).reports) ↔
      (env 14 = PollStep.throws ∧ ∀ j, j < 14 → isRecordStep (env j) = false)) ∧
    ((PollReport.unableToLoad ∈ (handleContinueRun env).reports) ↔
      (env 9 = PollStep.throws ∧ ∀ j, j < 9 → isRecordStep (env j) = false)) := by
  have hff : fetchFeedbackRun env = runPoller env 15 true feedbackPageTimeoutMsg := rfl
  have hhc : handleContinueRun env = runPoller env 10 false overlayTimeoutMsg := rfl
  refine ⟨?_, ?_, ?_, ?_⟩
  · obtain ⟨n, hn, hr, hs⟩ := pollAux_sleeps env 15 0 {}
    have hr' : (pollAux env 0 15 {}).reads = n := by simpa using hr
    have hs' : (pollAux env 0 15 {}).sleeps = (List.range n).countP
        (fun j => decide (env j = PollStep.resp PollResponse.stillPending)) := by
      simpa using hs
    rw [hff, runPoller_sleeps, runPoller_reads, hr', hs']
  · obtain ⟨n, hn, hr, hs⟩ := pollAux_sleeps env 10 0 {}
    have hr' : (pollAux env 0 10 {}).reads = n := by simpa using hr
    have hs' : (pollAux env 0 10 {}).sleeps = (List.range n).countP
        (fun j => decide (env j = PollStep.resp PollResponse.stillPending)) := by
      simpa using hs
    rw [hhc, runPoller_sleeps, runPoller_reads, hr', hs']
  · have h15 := pollAux_unable env 15 0 {} (by omega)
    constructor
    · intro hmem
      have hmem' : PollReport.unableToLoad ∈ (pollAux env 0 15 {}).reports := by
        rw [hff, runPoller_unable_mem] at hmem
        exact hmem
      rcases h15.mp hmem' with hm | ⟨ht, hall⟩
      · simp at hm
      · exact ⟨by simpa using ht, fun j hj => by simpa using hall j (by omega)⟩
    · rintro ⟨ht, hall⟩
      rw [hff, runPoller_unable_mem]
      exact h15.mpr (Or.inr ⟨by simpa using ht, fun j hj => by simpa using hall j (by omega)⟩)
  · have h10 := pollAux_unable env 10 0 {} (by omega)
    constructor
    · intro hmem
      have hmem' : PollReport.unableToLoad ∈ (pollAux env 0 10 {}).reports := by
        rw [hhc, runPoller_unable_mem] at hmem
        exact hmem
      rcases h10.mp hmem' with hm | ⟨ht, hall⟩
      · simp at hm
      · exact ⟨by simpa using ht, fun j hj => by simpa using hall j (by omega)⟩
    · rintro ⟨ht, hall⟩
      rw [hhc, runPoller_unable_mem]
      exact h10.mpr (Or.inr ⟨by simpa using ht, fun j hj => by simpa using hall j (by omega)⟩)

def c9WitnessEnv : Nat → PollStep := fun _ => PollStep.throws

theorem c9_sleep_only_on_pending_witness :
    PollReport.unableToLoad ∈ (fetchFeedbackRun c9WitnessEnv).reports ∧
    (handleContinueRun c9WitnessEnv).sleeps = 0 := by
  have h := c9_sleep_only_on_pending c9WitnessEnv
  refine ⟨h.2.2.1.mpr ⟨rfl, by decide⟩, ?_⟩
  rw [h.2.1]
  decide

def pendingOnlyEnv : Nat → PollStep := fun _ => PollStep.resp PollResponse.stillPending

/-- C3: when the attempt ceiling is reached with no feedback record having
appeared, FeedbackPage does set the "taking longer than expected" report
(distinct from the generation-error report, which only a poll with
`status: "error"` produces), but SubmissionOverlay's post-loop branch
`if (feedbackLoading)` reads the stale closure value `false` captured at the
click render, so on the same input it issues no report at all and leaves its
loading flag stuck at `true` — contradicting both the spec and the code's own
`// Timeout - feedback took too long` comment. -/
theorem c3_overlay_timeout_report_never_fires :
    (fetchFeedbackRun pendingOnlyEnv).error = some feedbackPageTimeoutMsg ∧
    (fetchFeedbackRun pendingOnlyEnv).reports = [PollReport.timeoutReport] ∧
    (handleContinueRun pendingOnlyEnv).reads = 10 ∧
    (handleContinueRun pendingOnlyEnv).error = none ∧
    (handleContinueRun pendingOnlyEnv).reports = [] ∧
    (handleContinueRun pendingOnlyEnv).loading = true := by decide

/-! ## Output normalization, test-case runner, scorer and grading
The Django backend that runs test cases via Judge0 and computes scores
(`django-app/students/` views, tasks and `judge0_service.py`) is not among the
available sources; these definitions are modelled from the specification
(§4.2 Test Case Runner, §4.3 Scorer, §4.1 Grading Orchestrator) and from the
documented `submit-sync` response shape in `CODE_EXECUTION_README.md`. -/

/-- Whitespace strippable at end of a line (the `\r` case also normalizes a
CRLF line ending to LF). -/
def isTrailWsChar (c : Char) : Bool := c = ' ' || c = '\t' || c = '\r'

/-- Whitespace for the purpose of "differs solely by trailing whitespace". -/
def isWsChar (c : Char) : Bool := isTrailWsChar c || c = '\n'

/-- Split a character list into lines at each newline. Never returns `[]`. -/
def splitOnNl : List Char → List (List Char)
  | [] => [[]]
  | c :: cs =>
    if c = '\n' then [] :: splitOnNl cs
    else
      match splitOnNl cs with
      | [] => [[c]]
      | l :: ls => (c :: l) :: ls

/-- Strip trailing whitespace from one line. -/
def rstripWs (l : List Char) : List Char := (l.reverse.dropWhile isTrailWsChar).reverse

/-- Drop trailing empty lines. -/
def dropTrailingEmpty (ls : List (List Char)) : List (List Char) :=
  (ls.reverse.dropWhile (fun l => l.isEmpty)).reverse

/-- Modelled from the spec: the backend comparison normalization ("actual
output is compared to expected output after normalizing trailing whitespace
and line-ending differences (exact match otherwise)", §4.2); the backend
implementation is not under the available sources.  Lines are split at
newlines, each line loses its trailing whitespace (including `\r` of a CRLF
ending), and trailing blank lines are dropped. -/
def normalizeLines (s : List Char) : List (List Char) :=
  dropTrailingEmpty ((splitOnNl s).map rstripWs)

/-- Normalized equality of judge output and expected output. -/
def outputsMatch (actual expected : String) : Bool :=
  normalizeLines actual.data == normalizeLines expected.data

/-- One test case of an activity (`test_cases` JSON field). -/
structure TestCase where
  input : String
  expected_output : String
deriving Repr, DecidableEq

/-- One per-case row of `test_results`, as documented in
`CODE_EXECUTION_README.md` (`test_case` is the 1-indexed case number). -/
structure TestCaseResult where
  test_case : Nat
  passed : Bool
  input : String
  expected_output : String
  actual_output : String
  error : Option String
deriving Repr, DecidableEq

/-- Judge0 outcome for one execution: accepted run with its stdout, an
execution error (non-zero status / runtime exception) with error text, or a
time limit exceeded verdict. -/
inductive JudgeOutcome where
  | accepted (stdout : String)
  | runtimeError (stdout : String) (msg : String)
  | timeLimitExceeded
deriving Repr, DecidableEq

def timeLimitMsg : String := "Time Limit Exceeded"

/-- Modelled from the spec (§4.2): verdict for one test case.  A case passes
iff the judge reported no execution error and the normalized outputs match; an
execution error or timeout marks the case failed with the error text
attached. -/
def runOneCase (judge : Nat → JudgeOutcome) (idx : Nat) (tc : TestCase) : TestCaseResult :=
  match judge idx with
  | .accepted out =>
      { test_case := idx + 1, passed := outputsMatch out tc.expected_output,
        input := tc.input, expected_output := tc.expected_output,
        actual_output := out, error := none }
  | .runtimeError out msg =>
      { test_case := idx + 1, passed := false, input := tc.input,
        expected_output := tc.expected_output, actual_output := out,
        error := some msg }
  | .timeLimitExceeded =>
      { test_case := idx + 1, passed := false, input := tc.input,
        expected_output := tc.expected_output, actual_output := "",
        error := some timeLimitMsg }

/-- Modelled from the spec (§4.2): cases run in list order; one case's
execution error does not abort the run. -/
def runTestCasesFrom (judge : Nat → JudgeOutcome) : Nat → List TestCase → List TestCaseResult
  | _, [] => []
  | idx, tc :: rest => runOneCase judge idx tc :: runTestCasesFrom judge (idx + 1) rest

def runTestCases (judge : Nat → JudgeOutcome) (cases : List TestCase) : List TestCaseResult :=
  runTestCasesFrom judge 0 cases

def passedCount (results : List TestCaseResult) : Nat :=
  (results.filter (fun r => r.passed)).length

/-- Modelled from the spec (§4.3): `round(100 * passed / total)`, rounding to
the nearest integer (half rounds up); `0` for an empty run. -/
def roundPct (passed total : Nat) : Nat := (200 * passed + total) / (2 * total)

def computeScore (results : List TestCaseResult) : Nat :=
  roundPct (passedCount results) results.length

/-- Modelled from the spec (§4.3): `"pass"` iff every case passed, otherwise
`"fail"` if at least one case ran without a judge-level error, otherwise
`"error"`. -/
def computeResult (results : List TestCaseResult) : String :=
  if passedCount results = results.length then "pass"
  else if results.any (fun r => r.error.isNone) then "fail"
  else "error"

example : roundPct 1 2 = 50 := by decide
example : roundPct 3 3 = 100 := by decide
example : roundPct 1 3 = 33 := by decide
example : roundPct 2 3 = 67 := by decide
example : outputsMatch "10 \n" "10" = true := by decide
example : outputsMatch "10" "1 0" = false := by decide
example : outputsMatch "a\r\nb" "a\nb" = true := by decide

theorem dropWhile_append_all {α : Type} {p : α → Bool} :
    ∀ {l1 l2 : List α}, (∀ a ∈ l1, p a = true) →
      (l1 ++ l2).dropWhile p = l2.dropWhile p := by
  intro l1
  induction l1 with
  | nil => intro l2 _; rfl
  | cons a t ih =>
    intro l2 h
    have ha := h a (by simp)
    simp only [List.cons_append, List.dropWhile_cons, ha, if_true]
    exact ih (fun x hx => h x (by simp [hx]))

theorem splitOnNl_ne_nil : ∀ s, splitOnNl s ≠ []
  | [] => by simp [splitOnNl]
  | c :: cs => by
    simp only [splitOnNl]
    by_cases h : c = '\n'
    · simp [h]
    · simp only [h, if_false]
      cases hs : splitOnNl cs <;> simp

theorem rstripWs_all_ws {l : List Char} (h : l.all isTrailWsChar = true) :
    rstripWs l = [] := by
  have hd : l.reverse.dropWhile isTrailWsChar = [] := by
    rw [List.dropWhile_eq_nil_iff]
    intro a ha
    exact List.all_eq_true.mp h a (List.mem_reverse.mp ha)
  simp [rstripWs, hd]

theorem rstripWs_append_ws {l w : List Char} (h : w.all isTrailWsChar = true) :
    rstripWs (l ++ w) = rstripWs l := by
  unfold rstripWs
  rw [List.reverse_append]
  congr 1
  exact dropWhile_append_all (fun a ha => List.all_eq_true.mp h a (List.mem_reverse.mp ha))

theorem splitOnNl_allWs : ∀ {w : List Char}, w.all isWsChar = true →
    ∀ l ∈ splitOnNl w, l.all isTrailWsChar = true := by
  intro w
  induction w with
  | nil =>
    intro _ l hl
    simp [splitOnNl] at hl
    subst hl
    rfl
  | cons c cs ih =>
    intro h l hl
    have hc : isWsChar c = true := List.all_eq_true.mp h c (by simp)
    have hcs : cs.all isWsChar = true := by
      simp only [List.all_cons, Bool.and_eq_true] at h
      exact h.2
    by_cases hnl : c = '\n'
    · rw [show splitOnNl (c :: cs) = [] :: splitOnNl cs from by simp [splitOnNl, hnl]] at hl
      rcases List.mem_cons.mp hl with hl | hl
      · subst hl; rfl
      · exact ih hcs l hl
    · have hct : isTrailWsChar c = true := by
        simp only [isWsChar, Bool.or_eq_true, decide_eq_true_eq] at hc
        rcases hc with h1 | h2
        · exact h1
        · exact absurd h2 hnl
      cases hs : splitOnNl cs with
      | nil => exact absurd hs (splitOnNl_ne_nil cs)
      | cons l0 ls =>
        rw [show splitOnNl (c :: cs) = (c :: l0) :: ls from by
          simp [splitOnNl, hnl, hs]] at hl
        rcases List.mem_cons.mp hl with hl | hl
        · subst hl
          have hl0 : l0.all isTrailWsChar = true := ih hcs l0 (by rw [hs]; simp)
          simp [List.all_cons, hct, hl0]
        · exact ih hcs l (by rw [hs]; simp [hl])

theorem splitOnNl_append_ws {w : List Char} (hw : w.all isWsChar = true) :
    ∀ e : List Char, ∃ init lst w0 rest,
      splitOnNl e = init ++ [lst] ∧
      splitOnNl (e ++ w) = init ++ (lst ++ w0) :: rest ∧
      w0.all isTrailWsChar = true ∧
      (∀ l ∈ rest, l.all isTrailWsChar = true) := by
  intro e
  induction e with
  | nil =>
    cases hsw : splitOnNl w with
    | nil => exact absurd hsw (splitOnNl_ne_nil w)
    | cons w0 rest =>
      refine ⟨[], [], w0, rest, by simp [splitOnNl], by simpa using hsw, ?_, ?_⟩
      · exact splitOnNl_allWs hw w0 (by rw [hsw]; simp)
      · intro l hl
        exact splitOnNl_allWs hw l (by rw [hsw]; simp [hl])
  | cons c cs ih =>
    obtain ⟨init, lst, w0, rest, h1, h2, h3, h4⟩ := ih
    by_cases hnl : c = '\n'
    · refine ⟨[] :: init, lst, w0, rest, ?_, ?_, h3, h4⟩
      · simp [splitOnNl, hnl, h1]
      · simp [splitOnNl, hnl, h2]
    · cases init with
      | nil =>
        refine ⟨[], c :: lst, w0, rest, ?_, ?_, h3, h4⟩
        · simp only [List.nil_append] at h1
          simp [splitOnNl, hnl, h1]
        · simp only [List.nil_append] at h2
          simp [splitOnNl, hnl, h2]
      | cons i0 init' =>
        refine ⟨(c :: i0) :: init', lst, w0, rest, ?_, ?_, h3, h4⟩
        · simp [splitOnNl, hnl, h1]
        · simp [splitOnNl, hnl, h2]

theorem dropTrailingEmpty_append {X E : List (List Char)}
    (h : ∀ l ∈ E, l.isEmpty = true) :
    dropTrailingEmpty (X ++ E) = dropTrailingEmpty X := by
  unfold dropTrailingEmpty
  rw [List.reverse_append]
  congr 1
  exact dropWhile_append_all (fun a ha => h a (List.mem_reverse.mp ha))

theorem normalizeLines_append_ws {e w : List Char} (hw : w.all isWsChar = true) :
    normalizeLines (e ++ w) = normalizeLines e := by
  obtain ⟨init, lst, w0, rest, h1, h2, h3, h4⟩ := splitOnNl_append_ws hw e
  unfold normalizeLines
  rw [h1, h2]
  calc dropTrailingEmpty ((init ++ (lst ++ w0) :: rest).map rstripWs)
      = dropTrailingEmpty ((init.map rstripWs ++ [rstripWs (lst ++ w0)])
          ++ rest.map rstripWs) := by
        simp [List.map_append]
    _ = dropTrailingEmpty (init.map rstripWs ++ [rstripWs (lst ++ w0)]) := by
        apply dropTrailingEmpty_append
        intro l hl
        obtain ⟨x, hx, rfl⟩ := List.mem_map.mp hl
        simp [rstripWs_all_ws (h4 x hx)]
    _ = dropTrailingEmpty ((init ++ [lst]).map rstripWs) := by
        rw [rstripWs_append_ws h3]
        simp [List.map_append]

/-- Judge behaviour for the spec scenario of C5: case 1 (index 0) times out,
case 2 (index 1) runs and matches. -/
def c5ScenarioJudge : Nat → JudgeOutcome := fun i =>
  if i = 0 then JudgeOutcome.timeLimitExceeded else JudgeOutcome.accepted "ok"

def c5ScenarioCases : List TestCase := [⟨"1", "ok"⟩, ⟨"2", "ok"⟩]

/-- C6: a test case is compared only after normalizing trailing whitespace and
line endings, with exact match otherwise: an accepted run whose output is the
expected output followed by whitespace only is still marked `passed = true`
with no error recorded, while any judge-reported execution error marks the
case failed regardless of output. -/
theorem c6_trailing_whitespace_still_passes (judge : Nat → JudgeOutcome) (idx : Nat)
    (tc : TestCase) (e w : String)
    (hw : w.data.all isWsChar = true)
    (hj : judge idx = JudgeOutcome.accepted (e ++ w))
    (he : tc.expected_output = e) :
    (runOneCase judge idx tc).passed = true ∧
    (runOneCase judge idx tc).error = none ∧
    (∀ judgeE out msg, judgeE idx = JudgeOutcome.runtimeError out msg →
      (runOneCase judgeE idx tc).passed = false) := by
  refine ⟨?_, ?_, ?_⟩
  · unfold runOneCase
    rw [hj]
    simp only [outputsMatch, he]
    rw [String.data_append, normalizeLines_append_ws hw]
    simp
  · unfold runOneCase
    rw [hj]
  · intro judgeE out msg hje
    unfold runOneCase
    rw [hje]

def c6WitnessJudge : Nat → JudgeOutcome := fun i =>
  if i = 0 then JudgeOutcome.accepted "10"
  else if i = 1 then JudgeOutcome.accepted "20"
  else JudgeOutcome.accepted "30 \n"

def c6WitnessCases : List TestCase :=
  [⟨"a", "10"⟩, ⟨"b", "20"⟩, ⟨"c", "30"⟩]

theorem c6_trailing_whitespace_still_passes_witness :
    (runOneCase c6WitnessJudge 2 ⟨"c", "30"⟩).passed = true ∧
    (runTestCases c6WitnessJudge c6WitnessCases).map (fun r => r.passed)
      = [true, true, true] ∧
    computeScore (runTestCases c6WitnessJudge c6WitnessCases) = 100 ∧
    computeResult (runTestCases c6WitnessJudge c6WitnessCases) = "pass" := by
  refine ⟨(c6_trailing_whitespace_still_passes c6WitnessJudge 2 ⟨"c", "30"⟩ "30" " \n"
    (by decide) (by decide) rfl).1, by decide, by decide, by decide⟩

theorem runTestCasesFrom_length (judge : Nat → JudgeOutcome) :
    ∀ cases idx, (runTestCasesFrom judge idx cases).length = cases.length := by
  intro cases
  induction cases with
  | nil => intro idx; rfl
  | cons tc rest ih =>
    intro idx
    simp [runTestCasesFrom, ih]

theorem runTestCasesFrom_getElem (judge : Nat → JudgeOutcome) :
    ∀ cases idx i, i < cases.length →
      ∃ tc, cases[i]? = some tc ∧
        (runTestCasesFrom judge idx cases)[i]? = some (runOneCase judge (idx + i) tc) := by
  intro cases
  induction cases with
  | nil => intro idx i hi; simp at hi
  | cons tc0 rest ih =>
    intro idx i hi
    cases i with
    | zero => exact ⟨tc0, by simp, by simp [runTestCasesFrom]⟩
    | succ i' =>
      obtain ⟨tc, htc, hr⟩ := ih (idx + 1) i' (by simpa using hi)
      refine ⟨tc, by simpa using htc, ?_⟩
      have harith : idx + 1 + i' = idx + (i' + 1) := by omega
      rw [harith] at hr
      simpa [runTestCasesFrom] using hr

/-- C5: a judge-reported execution error (runtime error or timeout) on one
case records that case as failed with the error text attached while every
other case is still executed (one result per case, in order); in the concrete
two-case scenario where case 1 times out and case 2 passes, the run scores 50
with overall result "fail" and only case 1 carries an error. -/
theorem c5_case_error_recorded_and_run_continues (judge : Nat → JudgeOutcome)
    (cases : List TestCase) :
    (runTestCases judge cases).length = cases.length ∧
    (∀ i out msg, i < cases.length →
      judge i = JudgeOutcome.runtimeError out msg →
      ∃ r, (runTestCases judge cases)[i]? = some r ∧
        r.passed = false ∧ r.error = some msg ∧ r.test_case = i + 1) ∧
    (∀ i, i < cases.length →
      judge i = JudgeOutcome.timeLimitExceeded →
      ∃ r, (runTestCases judge cases)[i]? = some r ∧
        r.passed = false ∧ r.error = some timeLimitMsg ∧ r.test_case = i + 1) ∧
    (computeScore (runTestCases c5ScenarioJudge c5ScenarioCases) = 50 ∧
     computeResult (runTestCases c5ScenarioJudge c5ScenarioCases) = "fail" ∧
     (runTestCases c5ScenarioJudge c5ScenarioCases).map
        (fun r => (r.passed, r.error))
      = [(false, some timeLimitMsg), (true, none)]) := by
  refine ⟨runTestCasesFrom_length judge cases 0, ?_, ?_, by decide, by decide, by decide⟩
  · intro i out msg hi hj
    obtain ⟨tc, htc, hr⟩ := runTestCasesFrom_getElem judge cases 0 i hi
    refine ⟨runOneCase judge i tc, by simpa using hr, ?_⟩
    unfold runOneCase
    rw [hj]
    exact ⟨rfl, rfl, rfl⟩
  · intro i hi hj
    obtain ⟨tc, htc, hr⟩ := runTestCasesFrom_getElem judge cases 0 i hi
    refine ⟨runOneCase judge i tc, by simpa using hr, ?_⟩
    unfold runOneCase
    rw [hj]
    exact ⟨rfl, rfl, rfl⟩

/-! ## Submission data model and grading orchestrator -/

/-- Submission lifecycle states, as in the documented `Submission` model
(`status: [pending, running, completed, failed]`). -/
inductive SubStatus where
  | pending
  | running
  | completed
  | failed
deriving Repr, DecidableEq

/-- The `ai_feedback` sub-record documented in `AI_FEEDBACK_README.md`. -/
structure AiFeedback where
  feedback : Option String
  verdict_type : String
  model_used : Option String
  generated_at : Option String
  error : Option String
deriving Repr, DecidableEq

/-- The `Submission` model as documented in `CODE_EXECUTION_README.md` and
`AI_FEEDBACK_README.md` (fields not needed by the claims are omitted). -/
structure Submission where
  id : Nat
  student_id : Nat
  activity_id : Nat
  code : String
  language : String
  status : SubStatus
  result : String
  score : Nat
  test_results : List TestCaseResult
  ai_feedback : Option AiFeedback
deriving Repr, DecidableEq

/-- A call to the external judge either fails at the network level
(unreachable) or yields an execution outcome. -/
inductive JudgeCall where
  | unreachable
  | outcome (o : JudgeOutcome)
deriving Repr, DecidableEq

/-- Per-case outcome when the judge call is treated at case level; an
unreachable call surfaces as an execution error with error text. -/
def judgeOutcomeOf : JudgeCall → JudgeOutcome
  | .unreachable => .runtimeError "" "Execution service unreachable"
  | .outcome o => o

/-- Modelled from the spec (§4.1 Grading Orchestrator, backend
`django-app/students` views/tasks not under the available sources): run every
test case in order, compute the score, and move the submission to the
`completed` terminal state; if the judge is unreachable for every case, reach
`failed` with `result = "error"` and no persisted TestCaseResults. -/
def gradeCore (judge : Nat → JudgeCall) (cases : List TestCase) (sub : Submission) :
    Submission :=
  if (List.range cases.length).all (fun i => judge i == JudgeCall.unreachable) then
    { sub with status := .failed, result := "error", test_results := [] }
  else
    { sub with
      status := .completed,
      result := computeResult (runTestCases (fun i => judgeOutcomeOf (judge i)) cases),
      score := computeScore (runTestCases (fun i => judgeOutcomeOf (judge i)) cases),
      test_results := runTestCases (fun i => judgeOutcomeOf (judge i)) cases }

theorem passedCount_eq_length_iff (results : List TestCaseResult) :
    passedCount results = results.length ↔ ∀ r ∈ results, r.passed = true := by
  unfold passedCount
  induction results with
  | nil => simp
  | cons a t ih =>
    by_cases hp : a.passed
    · rw [show List.filter (fun r => r.passed) (a :: t)
          = a :: List.filter (fun r => r.passed) t from by simp [List.filter_cons, hp]]
      simp only [List.length_cons, List.mem_cons]
      rw [Nat.succ_inj]
      constructor
      · intro h r hr
        rcases hr with hr | hr
        · subst hr; exact hp
        · exact (ih.mp h) r hr
      · intro h
        exact ih.mpr (fun r hr => h r (Or.inr hr))
    · rw [show List.filter (fun r => r.passed) (a :: t)
          = List.filter (fun r => r.passed) t from by simp [List.filter_cons, hp]]
      simp only [List.length_cons, List.mem_cons]
      have hle := List.length_filter_le (fun r => r.passed) t
      constructor
      · intro h
        exact absurd h (by omega)
      · intro h
        have := h a (Or.inl rfl)
        simp [this] at hp

theorem computeResult_characterization (results : List TestCaseResult) :
    (computeResult results = "pass" ↔ passedCount results = results.length) ∧
    (computeResult results = "fail" ↔ (passedCount results ≠ results.length ∧
        results.any (fun r => r.error.isNone) = true)) ∧
    (computeResult results = "error" ↔ (passedCount results ≠ results.length ∧
        results.any (fun r => r.error.isNone) = false)) := by
  unfold computeResult
  by_cases h1 : passedCount results = results.length
  · simp [h1]
  · by_cases h2 : results.any (fun r => r.error.isNone)
    · simp [h1, h2]
    · simp [h1, h2]

/-- C1: for a graded (completed) submission the persisted score is exactly
`round(100 * passed / total)` recomputed from the persisted per-case results
(idempotent recomputation); the overall result is "pass" iff every case
passed, "fail" iff not all passed but at least one case ran without a
judge-level error, and "error" only when every case carries a judge-level
error. -/
theorem c1_score_result_from_persisted_results (judge : Nat → JudgeCall)
    (cases : List TestCase) (sub : Submission)
    (hc : (gradeCore judge cases sub).status = SubStatus.completed) :
    ((gradeCore judge cases sub).score
        = computeScore (gradeCore judge cases sub).test_results) ∧
    ((gradeCore judge cases sub).score
        = roundPct (passedCount (gradeCore judge cases sub).test_results)
            (gradeCore judge cases sub).test_results.length) ∧
    ((gradeCore judge cases sub).result = "pass" ↔
      ∀ r ∈ (gradeCore judge cases sub).test_results, r.passed = true) ∧
    ((gradeCore judge cases sub).result = "fail" ↔
      ((¬ ∀ r ∈ (gradeCore judge cases sub).test_results, r.passed = true) ∧
       ∃ r ∈ (gradeCore judge cases sub).test_results, r.error = none)) ∧
    ((gradeCore judge cases sub).result = "error" →
      ∀ r ∈ (gradeCore judge cases sub).test_results, r.error ≠ none) := by
  by_cases hall : (List.range cases.length).all (fun i => judge i == JudgeCall.unreachable)
  · exfalso
    unfold gradeCore at hc
    rw [if_pos hall] at hc
    simp at hc
  · have hg : gradeCore judge cases sub =
      { sub with
        status := .completed,
        result := computeResult (runTestCases (fun i => judgeOutcomeOf (judge i)) cases),
        score := computeScore (runTestCases (fun i => judgeOutcomeOf (judge i)) cases),
        test_results := runTestCases (fun i => judgeOutcomeOf (judge i)) cases } := by
      unfold gradeCore
      rw [if_neg hall]
    rw [hg]
    simp only []
    obtain ⟨hpass, hfail, herr⟩ :=
      computeResult_characterization (runTestCases (fun i => judgeOutcomeOf (judge i)) cases)
    refine ⟨by trivial, by trivial, ?_, ?_, ?_⟩
    · rw [hpass, passedCount_eq_length_iff]
    · rw [hfail]
      constructor
      · rintro ⟨hne, hany⟩
        refine ⟨fun hallp => hne ((passedCount_eq_length_iff _).mpr hallp), ?_⟩
        obtain ⟨r, hr, hrn⟩ := List.any_eq_true.mp hany
        exact ⟨r, hr, Option.isNone_iff_eq_none.mp hrn⟩
      · rintro ⟨hnall, r, hr, hre⟩
        refine ⟨fun hlen => hnall ((passedCount_eq_length_iff _).mp hlen), ?_⟩
        exact List.any_eq_true.mpr ⟨r, hr, by simp [hre]⟩
    · intro he r hr
      obtain ⟨-, hany⟩ := herr.mp he
      intro hre
      have : (runTestCases (fun i => judgeOutcomeOf (judge i)) cases).any
          (fun r => r.error.isNone) = true :=
        List.any_eq_true.mpr ⟨r, hr, by simp [hre]⟩
      rw [hany] at this
      simp at this

def c1WitnessSub : Submission :=
  { id := 1, student_id := 1, activity_id := 1, code := "print(10)",
    language := "python", status := .pending, result := "pending", score := 0,
    test_results := [], ai_feedback := none }

def c1WitnessJudge : Nat → JudgeCall := fun i =>
  if i = 0 then JudgeCall.outcome (JudgeOutcome.accepted "ok")
  else JudgeCall.outcome JudgeOutcome.timeLimitExceeded

def c1WitnessCases : List TestCase := [⟨"1", "ok"⟩, ⟨"2", "ok"⟩]

theorem c1_score_result_from_persisted_results_witness :
    (gradeCore c1WitnessJudge c1WitnessCases c1WitnessSub).score
      = computeScore (gradeCore c1WitnessJudge c1WitnessCases c1WitnessSub).test_results ∧
    (gradeCore c1WitnessJudge c1WitnessCases c1WitnessSub).result = "fail" := by
  have h := c1_score_result_from_persisted_results c1WitnessJudge c1WitnessCases
    c1WitnessSub (by decide)
  exact ⟨h.1, h.2.2.2.1.mpr ⟨by decide, by decide⟩⟩

theorem c5_case_error_recorded_witness :
    ∃ r, (runTestCases c5ScenarioJudge c5ScenarioCases)[0]? = some r ∧
      r.passed = false ∧ r.error = some timeLimitMsg ∧ r.test_case = 1 :=
  (c5_case_error_recorded_and_run_continues c5ScenarioJudge c5ScenarioCases).2.2.1
    0 (by decide) rfl

/-! ## Submission store, synchronous and asynchronous invocation -/

/-- The fields of a grading request body (api.js `submitCode` /
`submitCodeSync`). -/
structure SubmitInput where
  activity_id : Nat
  student_id : Nat
  code : String
  language : String
deriving Repr, DecidableEq

/-- A freshly created submission: `pending` status, `pending` result, no
results yet. -/
def newSubmission (id : Nat) (inp : SubmitInput) : Submission :=
  { id := id, student_id := inp.student_id, activity_id := inp.activity_id,
    code := inp.code, language := inp.language, status := .pending,
    result := "pending", score := 0, test_results := [], ai_feedback := none }

/-- Modelled from the spec (§6 Submission Store boundary): a durable keyed
store of submissions plus the queue of async grading tasks. -/
structure Store where
  nextId : Nat
  subs : List (Nat × Submission)
  queue : List Nat
deriving Repr, DecidableEq

def storeGet (s : Store) (id : Nat) : Option Submission :=
  (s.subs.find? (fun p => p.1 == id)).map (fun p => p.2)

def storePut (s : Store) (id : Nat) (sub : Submission) : Store :=
  { s with subs := (id, sub) :: s.subs.filter (fun p => p.1 != id) }

/-- Modelled from the spec (§4.1, backend `submit-sync` view not under the
available sources): synchronous mode creates the submission, grades it with
the shared `gradeCore` state machine, persists and returns the full terminal
submission. -/
def submitSync (judge : Nat → JudgeCall) (cases : List TestCase) (inp : SubmitInput)
    (s : Store) : Store × Submission :=
  (storePut { s with nextId := s.nextId + 1 } s.nextId
    (gradeCore judge cases (newSubmission s.nextId inp)),
   gradeCore judge cases (newSubmission s.nextId inp))

/-- Modelled from the spec (§4.1, backend `submit` view + Celery task not
under the available sources): asynchronous mode persists the pending
submission, enqueues the grading task and returns immediately with the id and
`pending`. -/
def submitAsync (inp : SubmitInput) (s : Store) : Store × (Nat × SubStatus) :=
  (storePut { s with nextId := s.nextId + 1, queue := s.queue ++ [s.nextId] }
    s.nextId (newSubmission s.nextId inp),
   (s.nextId, SubStatus.pending))

/-- Modelled from the spec (§5): a background worker dequeues one task and
runs the identical grading logic on the stored submission. -/
def workerStep (judge : Nat → JudgeCall) (cases : List TestCase) (s : Store) : Store :=
  match s.queue with
  | [] => s
  | id :: rest =>
    match storeGet s id with
    | none => { s with queue := rest }
    | some sub => storePut { s with queue := rest } id (gradeCore judge cases sub)

/-- The status read (`GET /students/submissions/\{id\}/status/` in api.js
`getSubmissionStatus`): a pure read that returns the store unchanged. -/
def getStatusOp (s : Store) (id : Nat) : Store × Option Submission :=
  (s, storeGet s id)

theorem storeGet_storePut (s : Store) (id : Nat) (sub : Submission) :
    storeGet (storePut s id sub) id = some sub := by
  simp [storeGet, storePut, List.find?]

theorem workerStep_single (judge : Nat → JudgeCall) (cases : List TestCase)
    (st : Store) (id : Nat) (sub : Submission)
    (hq : st.queue = [id]) (hg : storeGet st id = some sub) :
    storeGet (workerStep judge cases st) id = some (gradeCore judge cases sub) := by
  unfold workerStep
  rw [hq]
  simp [hg, storeGet_storePut]

/-- HTTP request descriptor, embedding the axios calls in
`first-app/src/services/api.js`. -/
structure ApiRequest where
  method : String
  url : String
  body : List (String × String)
deriving Repr, DecidableEq

/-- `codeAPI.submitCode` (api.js lines 119-126). -/
def submitCodeReq (activityId studentId : Nat) (code lang : String) : ApiRequest :=
  { method := "POST", url := "/students/code/submit/",
    body := [("activity_id", toString activityId), ("student_id", toString studentId),
             ("code", code), ("language", lang)] }

/-- `codeAPI.submitCodeSync` (api.js lines 129-136). -/
def submitCodeSyncReq (activityId studentId : Nat) (code lang : String) : ApiRequest :=
  { method := "POST", url := "/students/code/submit-sync/",
    body := [("activity_id", toString activityId), ("student_id", toString studentId),
             ("code", code), ("language", lang)] }

/-- `codeAPI.getSubmissionStatus` (api.js lines 139-141). -/
def getSubmissionStatusReq (submissionId : Nat) : ApiRequest :=
  { method := "GET",
    url := "/students/submissions/" ++ toString submissionId ++ "/status/",
    body := [] }

/-- `codeAPI.getAIFeedback` (api.js lines 144-146). -/
def getAIFeedbackReq (submissionId : Nat) : ApiRequest :=
  { method := "GET",
    url := "/students/submissions/" ++ toString submissionId ++ "/ai-feedback/",
    body := [] }

/-- C7: both invocation modes run the same grading state machine
(`gradeCore`): the synchronous submit returns the full submission already in a
terminal state and persists it; the asynchronous submit returns immediately
with the submission id and `pending` status, and after the background worker
runs the queued task the stored submission equals what the synchronous mode
returns; the status read is an idempotent, side-effect-free read; the two
submit endpoints send identical bodies via POST and the status read is a
GET. -/
theorem c7_sync_async_shared_state_machine (judge : Nat → JudgeCall)
    (cases : List TestCase) (inp : SubmitInput) (s : Store) (hq : s.queue = []) :
    ((submitSync judge cases inp s).2.status = SubStatus.completed ∨
     (submitSync judge cases inp s).2.status = SubStatus.failed) ∧
    storeGet (submitSync judge cases inp s).1 s.nextId
      = some (submitSync judge cases inp s).2 ∧
    (submitAsync inp s).2 = (s.nextId, SubStatus.pending) ∧
    (storeGet (submitAsync inp s).1 s.nextId).map (fun x => x.status)
      = some SubStatus.pending ∧
    (∀ st id, getStatusOp st id = (st, storeGet st id)) ∧
    (∀ st id, (getStatusOp ((getStatusOp st id).1) id).2 = (getStatusOp st id).2) ∧
    storeGet (workerStep judge cases (submitAsync inp s).1) s.nextId
      = some (submitSync judge cases inp s).2 ∧
    (∀ a st c l, (submitCodeSyncReq a st c l).method = "POST" ∧
      (submitCodeReq a st c l).method = "POST" ∧
      (submitCodeSyncReq a st c l).body = (submitCodeReq a st c l).body) ∧
    (∀ i, (getSubmissionStatusReq i).method = "GET" ∧
      (getSubmissionStatusReq i).body = []) := by
  refine ⟨?_, ?_, rfl, ?_, fun st id => rfl, fun st id => rfl, ?_,
    fun a st c l => ⟨rfl, rfl, rfl⟩, fun i => ⟨rfl, rfl⟩⟩
  · show (gradeCore judge cases (newSubmission s.nextId inp)).status = SubStatus.completed ∨
      (gradeCore judge cases (newSubmission s.nextId inp)).status = SubStatus.failed
    unfold gradeCore
    by_cases hall : (List.range cases.length).all (fun i => judge i == JudgeCall.unreachable)
    · right
      rw [if_pos hall]
    · left
      rw [if_neg hall]
  · show storeGet (storePut { s with nextId := s.nextId + 1 } s.nextId
      (gradeCore judge cases (newSubmission s.nextId inp))) s.nextId = _
    exact storeGet_storePut _ _ _
  · show (storeGet (storePut { s with nextId := s.nextId + 1, queue := s.queue ++ [s.nextId] }
      s.nextId (newSubmission s.nextId inp)) s.nextId).map (fun x => x.status) = _
    rw [storeGet_storePut]
    rfl
  · have hqueue : (submitAsync inp s).1.queue = [s.nextId] := by
      simp [submitAsync, storePut, hq]
    have hget : storeGet (submitAsync inp s).1 s.nextId
        = some (newSubmission s.nextId inp) := by
      show storeGet (storePut { s with nextId := s.nextId + 1, queue := s.queue ++ [s.nextId] }
        s.nextId (newSubmission s.nextId inp)) s.nextId = _
      exact storeGet_storePut _ _ _
    rw [workerStep_single judge cases _ s.nextId _ hqueue hget]
    rfl

def c7WitnessStore : Store := { nextId := 5, subs := [], queue := [] }

def c7WitnessInput : SubmitInput :=
  { activity_id := 1, student_id := 2, code := "print(10)", language := "python" }

def c7WitnessJudge : Nat → JudgeCall :=
  fun _ => JudgeCall.outcome (JudgeOutcome.accepted "10")

def c7WitnessCases : List TestCase := [⟨"", "10"⟩]

theorem c7_sync_async_shared_state_machine_witness :
    (submitAsync c7WitnessInput c7WitnessStore).2 = (5, SubStatus.pending) ∧
    storeGet (workerStep c7WitnessJudge c7WitnessCases
        (submitAsync c7WitnessInput c7WitnessStore).1) 5
      = some (submitSync c7WitnessJudge c7WitnessCases c7WitnessInput c7WitnessStore).2 := by
  have h := c7_sync_async_shared_state_machine c7WitnessJudge c7WitnessCases
    c7WitnessInput c7WitnessStore rfl
  exact ⟨h.2.2.1, h.2.2.2.2.2.2.1⟩

/-! ## Feedback generator (best-effort side channel) -/

/-- Modelled from the spec (§4.4) and AI_FEEDBACK_README ("The task retries up
to 2 times"): try the provider at most `n` times, returning the first
generated text; attempt `i` of the provider yields `some text` or fails. -/
def feedbackAttempts (provider : Nat → Option String) : Nat → Nat → Option String
  | _, 0 => none
  | i, n + 1 =>
    match provider i with
    | some t => some t
    | none => feedbackAttempts provider (i + 1) n

/-- Verdict classification from the grading result (spec §4.4:
pass→accepted, fail→wrong_answer, anything else→error). -/
def verdictOf (result : String) : String :=
  if result = "pass" then "accepted"
  else if result = "fail" then "wrong_answer"
  else "error"

def feedbackFailureMsg : String := "Feedback generation failed"

/-- Modelled from the spec (§4.4 Feedback Generator; the backend Celery task
`generate_ai_feedback_task` is not under the available sources): writes only
the `ai_feedback` sub-record of the submission; after all attempts fail it
records the failure in the sub-record error field, never touching the grading
fields. -/
def generateAiFeedback (provider : Nat → Option String) (modelName now : String)
    (sub : Submission) : Submission :=
  match feedbackAttempts provider 0 3 with
  | some text =>
    { sub with
      ai_feedback := some
        { feedback := some text, verdict_type := verdictOf sub.result,
          model_used := some modelName, generated_at := some now, error := none } }
  | none =>
    { sub with
      ai_feedback := some
        { feedback := none, verdict_type := verdictOf sub.result,
          model_used := none, generated_at := none,
          error := some feedbackFailureMsg } }

/-- The `ai-feedback` endpoint response computed from a submission, as
consumed by the pollers: pending while the sub-record is absent, error when a
record with no feedback text is present, success otherwise. -/
def readAiFeedback (sub : Submission) : PollResponse :=
  match sub.ai_feedback with
  | none => .stillPending
  | some fb =>
    match fb.feedback with
    | some t =>
      .hasFeedback ⟨t, fb.verdict_type, fb.model_used.getD "", fb.generated_at.getD ""⟩
    | none => .errorStatus fb.error

/-- The feedback read at the store level: a pure read, store unchanged. -/
def readFeedbackOp (s : Store) (id : Nat) : Store × Option PollResponse :=
  (s, (storeGet s id).map readAiFeedback)

/-- C4: feedback generation never alters the submission status, result, score
or per-case results; a total provider failure is recorded only in the
`ai_feedback.error` field; the caller-facing feedback read is a
side-effect-free read of that sub-record (a GET with no body, returning the
store unchanged). -/
theorem c4_feedback_decoupled_from_grading (provider : Nat → Option String)
    (modelName now : String) (sub : Submission) :
    (generateAiFeedback provider modelName now sub).status = sub.status ∧
    (generateAiFeedback provider modelName now sub).result = sub.result ∧
    (generateAiFeedback provider modelName now sub).score = sub.score ∧
    (generateAiFeedback provider modelName now sub).test_results = sub.test_results ∧
    ((provider 0 = none ∧ provider 1 = none ∧ provider 2 = none) →
      (generateAiFeedback provider modelName now sub).ai_feedback = some
        { feedback := none, verdict_type := verdictOf sub.result, model_used := none,
          generated_at := none, error := some feedbackFailureMsg }) ∧
    (∀ st id, (readFeedbackOp st id).1 = st) ∧
    (∀ st id, readFeedbackOp ((readFeedbackOp st id).1) id = readFeedbackOp st id) ∧
    (∀ i, (getAIFeedbackReq i).method = "GET" ∧ (getAIFeedbackReq i).body = []) := by
  refine ⟨?_, ?_, ?_, ?_, ?_, fun st id => rfl, fun st id => rfl, fun i => ⟨rfl, rfl⟩⟩
  · unfold generateAiFeedback
    cases feedbackAttempts provider 0 3 <;> rfl
  · unfold generateAiFeedback
    cases feedbackAttempts provider 0 3 <;> rfl
  · unfold generateAiFeedback
    cases feedbackAttempts provider 0 3 <;> rfl
  · unfold generateAiFeedback
    cases feedbackAttempts provider 0 3 <;> rfl
  · rintro ⟨h0, h1, h2⟩
    have hn : feedbackAttempts provider 0 3 = none := by
      simp [feedbackAttempts, h0, h1, h2]
    unfold generateAiFeedback
    rw [hn]

def c4WitnessSub : Submission :=
  { id := 9, student_id := 3, activity_id := 4, code := "x = 1", language := "python",
    status := .completed, result := "fail", score := 50,
    test_results := [], ai_feedback := none }

theorem c4_feedback_decoupled_from_grading_witness :
    (generateAiFeedback (fun _ => none) "gemini-1.5-flash" "2025-12-22" c4WitnessSub).score
      = c4WitnessSub.score ∧
    (generateAiFeedback (fun _ => none) "gemini-1.5-flash" "2025-12-22"
        c4WitnessSub).ai_feedback = some
      { feedback := none, verdict_type := "wrong_answer", model_used := none,
        generated_at := none, error := some feedbackFailureMsg } := by
  have h := c4_feedback_decoupled_from_grading (fun _ => none) "gemini-1.5-flash"
    "2025-12-22" c4WitnessSub
  exact ⟨h.2.2.1, h.2.2.2.2.1 ⟨rfl, rfl, rfl⟩⟩

/-! ## Language configuration (ActivityModule.jsx) and request validation -/

/-- One entry of `LANGUAGE_CONFIG` in `ActivityModule.jsx`. -/
structure LangConfig where
  id : String
  label : String
  defaultCode : String
deriving Repr, DecidableEq

/-- `LANGUAGE_CONFIG` from `ActivityModule.jsx` lines 9-38, keyed as in the
source object. -/
def LANGUAGE_CONFIG : List (String × LangConfig) :=
  [("python",
    { id := "python", label := "Python",
      defaultCode := "# Write your solution here\nprint(\"Hello, World!\")\n" }),
   ("javascript",
    { id := "javascript", label := "JavaScript",
      defaultCode := "// Write your solution here\nconsole.log(\"Hello, World!\");\n" }),
   ("java",
    { id := "java", label := "Java",
      defaultCode := "import java.util.Scanner;\n\npublic class Main \x7b\n    public static void main(String[] args) \x7b\n        Scanner sc = new Scanner(System.in);\n        System.out.println(\"Hello, World!\");\n    \x7d\n\x7d\n" }),
   ("cpp",
    { id := "cpp", label := "C++",
      defaultCode := "#include <iostream>\nusing namespace std;\n\nint main() \x7b\n    cout << \"Hello, World!\" << endl;\n    return 0;\n\x7d\n" }),
   ("c",
    { id := "c", label := "C",
      defaultCode := "#include <stdio.h>\n\nint main() \x7b\n    printf(\"Hello, World!\\n\");\n    return 0;\n\x7d\n" })]

/-- The `<option>` values of the language `<select>` in `ActivityModule.jsx`
lines 338-348: `Object.entries(LANGUAGE_CONFIG)` keys, in order. -/
def languageSelectOptions : List String := LANGUAGE_CONFIG.map (fun p => p.1)

/-- The Judge0 language table of `CODE_EXECUTION_README.md` ("Supported
Languages"), Monaco id paired with Judge0 id. -/
def judge0Languages : List (String × Nat) :=
  [("python", 71), ("javascript", 63), ("java", 62), ("cpp", 54), ("c", 50),
   ("csharp", 51), ("go", 60), ("ruby", 72), ("rust", 73), ("typescript", 74),
   ("php", 68), ("swift", 83), ("kotlin", 78)]

/-- Modelled from the spec (§6: "Supported `language` enumeration is a fixed,
closed set"; the backend language map is documented in the README table but
its code is not under the available sources). -/
def supportedLanguages : List String := judge0Languages.map (fun p => p.1)

def validateLanguage (lang : String) : Bool := supportedLanguages.contains lang

/-- Modelled from the spec (§6: "requests with values outside it are rejected
before any Judge Client call"): a grading request handler; the second
component counts Judge Client calls performed. -/
def submitRequestHandler (judge : Nat → JudgeCall) (cases : List TestCase)
    (sub : Submission) : Except String Submission × Nat :=
  if validateLanguage sub.language then
    (Except.ok (gradeCore judge cases sub), cases.length)
  else
    (Except.error "Unsupported language", 0)

/-- C8: the selectable language set in the submission UI is exactly
`[python, javascript, java, cpp, c]`, every selectable language is in the
fixed supported enumeration, and a request whose language is outside the
enumeration is rejected with zero Judge Client calls while a supported one
is graded. -/
theorem c8_closed_language_set (judge : Nat → JudgeCall) (cases : List TestCase)
    (sub : Submission) :
    languageSelectOptions = ["python", "javascript", "java", "cpp", "c"] ∧
    (∀ l ∈ languageSelectOptions, validateLanguage l = true) ∧
    (validateLanguage sub.language = false →
      submitRequestHandler judge cases sub = (Except.error "Unsupported language", 0)) ∧
    (validateLanguage sub.language = true →
      submitRequestHandler judge cases sub
        = (Except.ok (gradeCore judge cases sub), cases.length)) := by
  refine ⟨rfl, by decide, ?_, ?_⟩
  · intro h
    simp [submitRequestHandler, h]
  · intro h
    simp [submitRequestHandler, h]

def c8WitnessSub : Submission :=
  { id := 2, student_id := 1, activity_id := 1, code := "BEGIN", language := "cobol",
    status := .pending, result := "pending", score := 0,
    test_results := [], ai_feedback := none }

theorem c8_closed_language_set_witness :
    submitRequestHandler (fun _ => JudgeCall.unreachable) [] c8WitnessSub
      = (Except.error "Unsupported language", 0) :=
  (c8_closed_language_set (fun _ => JudgeCall.unreachable) [] c8WitnessSub).2.2.1
    (by decide)

/-! ## handleSubmitCode (ActivityModule.jsx) -/

/-- The JSON body of a successful `submit-sync` response as read by
`handleSubmitCode` (fields beyond those consumed are omitted;
`test_results` and `submission_id` may be absent). -/
structure SubmitResponseData where
  success : Bool
  score : Nat
  passed : Nat
  total : Nat
  result : String
  test_results : Option (List TestCaseResult)
  submission_id : Option Nat
deriving Repr, DecidableEq

/-- Outcome of the awaited `codeAPI.submitCodeSync` call: resolved with a
response body, or rejected with the derived message
(`error.response?.data?.error || error.message || "Submission failed"`). -/
inductive SubmitOutcome where
  | resolved (data : SubmitResponseData)
  | rejected (msg : String)
deriving Repr, DecidableEq

/-- The object stored in the `testResults` React state. -/
structure DisplayedResult where
  success : Bool
  score : Nat
  passed : Nat
  total : Nat
  result : String
  results : List TestCaseResult
  error : Option String
deriving Repr, DecidableEq

/-- The observable effects of one `handleSubmitCode` run. -/
structure SubmitUiState where
  testResults : Option DisplayedResult
  output : String
  navigatedTo : Option String
deriving Repr, DecidableEq

/-- `handleSubmitCode` in `ActivityModule.jsx` lines 135-189.  On success the
response fields are displayed and `navigate` runs only under
`if (data.submission_id)` (JavaScript truthiness: an absent or zero id does
not navigate); on a rejected promise the fixed error result is displayed, the
message shown, and no navigation happens. -/
def handleSubmitCode (o : SubmitOutcome) : SubmitUiState :=
  match o with
  | .resolved data =>
    { testResults := some
        { success := data.success, score := data.score, passed := data.passed,
          total := data.total, result := data.result,
          results := data.test_results.getD [], error := none },
      output := "",
      navigatedTo :=
        match data.submission_id with
        | some id => if id ≠ 0 then some ("/student/feedback/" ++ toString id) else none
        | none => none }
  | .rejected msg =>
    { testResults := some
        { success := false, score := 0, passed := 0, total := 0,
          result := "error", results := [], error := some msg },
      output := "Error: " ++ msg,
      navigatedTo := none }

/-- C10: a failed submit displays exactly
`{success: false, score: 0, passed: 0, total: 0, result: "error"}` with the
message shown and no navigation; a successful response navigates to the
feedback page iff it contains a (nonzero) `submission_id`. -/
theorem c10_submit_error_path_and_navigation :
    (∀ msg, handleSubmitCode (.rejected msg) =
      { testResults := some
          { success := false, score := 0, passed := 0, total := 0,
            result := "error", results := [], error := some msg },
        output := "Error: " ++ msg,
        navigatedTo := none }) ∧
    (∀ data, data.submission_id = none →
      (handleSubmitCode (.resolved data)).navigatedTo = none) ∧
    (∀ data id, data.submission_id = some id → id ≠ 0 →
      (handleSubmitCode (.resolved data)).navigatedTo
        = some ("/student/feedback/" ++ toString id)) ∧
    (∀ data, (handleSubmitCode (.resolved data)).testResults = some
      { success := data.success, score := data.score, passed := data.passed,
        total := data.total, result := data.result,
        results := data.test_results.getD [], error := none }) := by
  refine ⟨fun msg => rfl, ?_, ?_, fun data => rfl⟩
  · intro data h
    simp [handleSubmitCode, h]
  · intro data id h hne
    simp [handleSubmitCode, h, hne]

def c10WitnessData : SubmitResponseData :=
  { success := true, score := 100, passed := 2, total := 2, result := "pass",
    test_results := none, submission_id := some 7 }

theorem c10_submit_error_path_and_navigation_witness :
    (handleSubmitCode (.resolved c10WitnessData)).navigatedTo
        = some "/student/feedback/7" ∧
    (handleSubmitCode (.rejected "Submission failed")).navigatedTo = none := by
  refine ⟨c10_submit_error_path_and_navigation.2.2.1 c10WitnessData 7 rfl (by decide), ?_⟩
  rw [c10_submit_error_path_and_navigation.1 "Submission failed"]

end CP
